import Mathlib

/-!
Verification of the D-Bus signature parser and type classifier of the
`dbus-macros` crate (files `src/signature.rs` and `src/derive.rs`).

The parser is embedded as a fuel-indexed recursive-descent function over a
position-tracked character list mirroring Rust's `Peekable<CharIndices>`;
positions are UTF-8 byte offsets, as produced by `str::char_indices`.  The
classifier (`derive::arg`'s signature-inference branch) is embedded over a
shape type mirroring `syn::Data` as the derive macro inspects it.
-/

/-- Embedding of `SimpleType` (signature.rs, lines 64-88): the 11 scalar
wire kinds of the D-Bus signature grammar. -/
inductive SimpleType
  | Byte
  | Bool
  | Int16
  | UInt16
  | Int32
  | UInt32
  | Double
  | UnixFd
  | String
  | ObjectPath
  | Signature
deriving DecidableEq

/-- Embedding of `DbusType` (signature.rs, lines 109-120): the recursive
signature-node tree. -/
inductive DbusType
  | Simple (t : SimpleType)
  | Struct (ts : List DbusType)
  | Array (t : DbusType)
  | Variant
  | Dict (k : SimpleType) (v : DbusType)

/-- Structured parse errors, one constructor per `bail!`/`ensure!`/
`error_message!` site of signature.rs, each carrying the character offset
the Rust message interpolates.  `outOfFuel` is an artifact of the fuel
encoding of the recursion and corresponds to no source error. -/
inductive ParseError
  | outOfFuel
  | expectedSimpleType (c : Char) (idx : Nat)
  | expectedKeyType (i : Nat)
  | expectedValueType (i : Nat)
  | missingArrayType (i : Nat)
  | parenNotClosed (i : Nat)
  | expectedDbusType (c : Char) (i : Nat)
deriving DecidableEq

/-- Top-level error of `Signature::parse`: either the 255 length check
(signature.rs, line 43) or an error from the type grammar. -/
inductive SigError
  | tooLong
  | parse (e : ParseError)

/-- Embedding of `SimpleType::from_char` (signature.rs, lines 91-106). -/
def SimpleType.from_char (c : Char) (idx : Nat) : Except ParseError SimpleType :=
  if c = 'y' then .ok .Byte
  else if c = 'b' then .ok .Bool
  else if c = 'n' then .ok .Int16
  else if c = 'q' then .ok .UInt16
  else if c = 'i' then .ok .Int32
  else if c = 'u' then .ok .UInt32
  else if c = 'd' then .ok .Double
  else if c = 'h' then .ok .UnixFd
  else if c = 's' then .ok .String
  else if c = 'o' then .ok .ObjectPath
  else if c = 'g' then .ok .Signature
  else .error (.expectedSimpleType c idx)

mutual

/-- Embedding of `DbusType::parse` (signature.rs, lines 122-164).  The
input is the remaining `(byte offset, char)` stream; the result carries the
parsed node (`none` on empty input, as in the source's `Ok(None)`) together
with the remaining stream.  `fuel` bounds the recursion depth; the callers
below always supply enough for it never to run out.  The source's
`ensure!(s.next().is_some_and(|c| c.1 == ')'))` and its guard
`matches!(s.peek(), Some((_, '{')))` are embedded as the corresponding
character comparisons; in the array arm with exhausted input the recursive
`parse` of the source returns `Ok(None)`, so that arm is the "missing array
type" error directly. -/
def DbusType.parse : Nat → List (Nat × Char) → Except ParseError (Option DbusType × List (Nat × Char))
  | _, [] => .ok (none, [])
  | 0, _ :: _ => .error .outOfFuel
  | fuel + 1, (i, c) :: s =>
    if c = 'y' then .ok (some (.Simple .Byte), s)
    else if c = 'b' then .ok (some (.Simple .Bool), s)
    else if c = 'n' then .ok (some (.Simple .Int16), s)
    else if c = 'q' then .ok (some (.Simple .UInt16), s)
    else if c = 'i' then .ok (some (.Simple .Int32), s)
    else if c = 'u' then .ok (some (.Simple .UInt32), s)
    else if c = 'd' then .ok (some (.Simple .Double), s)
    else if c = 'h' then .ok (some (.Simple .UnixFd), s)
    else if c = 's' then .ok (some (.Simple .String), s)
    else if c = 'o' then .ok (some (.Simple .ObjectPath), s)
    else if c = 'g' then .ok (some (.Simple .Signature), s)
    else if c = '(' then
      match DbusType.parseMembers fuel s with
      | .error e => .error e
      | .ok (ts, s1) =>
        match s1 with
        | (_, cc) :: rest =>
          if cc = ')' then .ok (some (.Struct ts), rest) else .error (.parenNotClosed i)
        | [] => .error (.parenNotClosed i)
    else if c = 'a' then
      match s with
      | (j, b) :: s1 =>
        if b = '{' then
          match s1 with
          | [] => .error (.expectedKeyType j)
          | (ki, kc) :: s2 =>
            match SimpleType.from_char kc ki with
            | .error e => .error e
            | .ok key =>
              match DbusType.parse fuel s2 with
              | .error e => .error e
              | .ok (none, _) => .error (.expectedValueType j)
              | .ok (some v, s3) => .ok (some (.Dict key v), s3)
        else
          match DbusType.parse fuel ((j, b) :: s1) with
          | .error e => .error e
          | .ok (none, _) => .error (.missingArrayType (i + 1))
          | .ok (some t, s2) => .ok (some (.Array t), s2)
      | [] => .error (.missingArrayType (i + 1))
    else if c = 'v' then .ok (some .Variant, s)
    else .error (.expectedDbusType c i)

/-- Embedding of the struct-member loop inside the `'('` arm of
`DbusType::parse` (signature.rs, lines 138-139): parse members until the
next character is `)` or the input is exhausted, without consuming the
`)`.  On exhausted input the recursive `parse` of the source returns
`Ok(None)` and the loop stops with the members collected so far, so the
empty arm returns the accumulated-nothing result directly. -/
def DbusType.parseMembers : Nat → List (Nat × Char) → Except ParseError (List DbusType × List (Nat × Char))
  | 0, _ => .error .outOfFuel
  | fuel + 1, s =>
    match s with
    | (k, kc) :: tail =>
      if kc = ')' then .ok ([], (k, kc) :: tail)
      else
        match DbusType.parse fuel ((k, kc) :: tail) with
        | .error e => .error e
        | .ok (none, s1) => .ok ([], s1)
        | .ok (some t, s1) =>
          match DbusType.parseMembers fuel s1 with
          | .error e => .error e
          | .ok (ts, s2) => .ok (t :: ts, s2)
    | [] => .ok ([], [])

end

/-- Embedding of the top-level `iter::from_fn` loop of `Signature::parse`
(signature.rs, lines 45-56).  On a terminator character the source peeks,
and when further input remains it builds an "expected end of input after
terminator" error — but that `Some(...)` is a discarded expression
statement (it is never returned), so the loop stops successfully in both
cases; the embedding reproduces that faithfully by returning `.ok []`. -/
def Signature.parseTypes : Nat → List (Nat × Char) → Except ParseError (List DbusType)
  | _, [] => .ok []
  | 0, _ :: _ => .error .outOfFuel
  | fuel + 1, (i, c) :: s =>
    if c = '\x00' then .ok []
    else
      match DbusType.parse (fuel + 1) ((i, c) :: s) with
      | .error e => .error e
      | .ok (none, _) => .ok []
      | .ok (some t, s1) =>
        match Signature.parseTypes fuel s1 with
        | .error e => .error e
        | .ok ts => .ok (t :: ts)

/-- UTF-8 byte size of one character, as Rust's `char::len_utf8` computes
it; `String::len` (used by the 255 check) is the sum of these. -/
def charUtf8Size (c : Char) : Nat :=
  if c.toNat < 0x80 then 1
  else if c.toNat < 0x800 then 2
  else if c.toNat < 0x10000 then 3
  else 4

/-- UTF-8 byte length of a text, Rust's `String::len`. -/
def utf8Len : List Char → Nat
  | [] => 0
  | c :: s => charUtf8Size c + utf8Len s

/-- Embedding of `str::char_indices` starting from byte offset `i`: each
character paired with its UTF-8 byte offset. -/
def charIndicesFrom : Nat → List Char → List (Nat × Char)
  | _, [] => []
  | i, c :: s => (i, c) :: charIndicesFrom (i + charUtf8Size c) s

/-- Embedding of `<Signature as Parse>::parse` (signature.rs, lines 38-60):
the 255 byte-length check followed by the top-level parse loop over
`char_indices`.  The fuel `2 * length + 2` is always sufficient. -/
def Signature.parse (s : List Char) : Except SigError (List DbusType) :=
  if utf8Len s ≤ 255 then
    match Signature.parseTypes (2 * s.length + 2) (charIndicesFrom 0 s) with
    | .ok ts => .ok ts
    | .error e => .error (.parse e)
  else .error .tooLong

/-- Embedding of `arg::ArgType` variant names as emitted by derive.rs: the
coarse wire-category tag. -/
inductive ArgType
  | Byte
  | Bool
  | Int16
  | UInt16
  | Int32
  | UInt32
  | Double
  | UnixFd
  | String
  | ObjectPath
  | Signature
  | Struct
  | Array
  | Variant
deriving DecidableEq

/-- Embedding of `SimpleType::arg_type` (derive.rs, lines 105-121). -/
def SimpleType.arg_type : SimpleType → ArgType
  | .Byte => .Byte
  | .Bool => .Bool
  | .Int16 => .Int16
  | .UInt16 => .UInt16
  | .Int32 => .Int32
  | .UInt32 => .UInt32
  | .Double => .Double
  | .UnixFd => .UnixFd
  | .String => .String
  | .ObjectPath => .ObjectPath
  | .Signature => .Signature

/-- Embedding of `DbusType::arg_type` (derive.rs, lines 94-103): the wire
category of a parsed node; arrays and dicts share the `Array` category. -/
def DbusType.arg_type : DbusType → ArgType
  | .Simple t => t.arg_type
  | .Struct _ => .Struct
  | .Array _ => .Array
  | .Variant => .Variant
  | .Dict _ _ => .Array

/-- Grammar symbol of a simple type (signature.rs, lines 66-87, doc
comments; the inverse of `SimpleType.from_char`). -/
def SimpleType.symbol : SimpleType → Char
  | .Byte => 'y'
  | .Bool => 'b'
  | .Int16 => 'n'
  | .UInt16 => 'q'
  | .Int32 => 'i'
  | .UInt32 => 'u'
  | .Double => 'd'
  | .UnixFd => 'h'
  | .String => 's'
  | .ObjectPath => 'o'
  | .Signature => 'g'

/-- One enum variant as the classifier sees it (derive.rs, lines 56-71):
its name and whether its field list is non-empty. -/
structure EnumVariant where
  name : List Char
  hasFields : Bool
deriving DecidableEq

/-- Static shape of a declared type, mirroring the `syn::Data` cases that
`derive::arg` (derive.rs, lines 30-75) matches on, with each field's type
represented by its own shape.  `scalar` models a field whose type already
has a simple-type `Arg` implementation (spec section 4.2, rule 1): its
category and one-character signature come from the tables above. -/
inductive Shape
  | scalar (t : SimpleType)
  | structUnnamed (tys : List Shape)
  | structNamed (tys : List Shape)
  | structUnit
  | enum (variants : List EnumVariant)
  | union

/-- Classifier errors, one per `bail!` site of the signature-inference
branch of `derive::arg` (derive.rs, lines 53-74).  `panicked` stands for
the `unwrap` on line 69, which the source argues is unreachable. -/
inductive ClassifyError
  | unitStruct
  | noVariants
  | enumFields (name : List Char)
  | unionType
  | panicked
deriving DecidableEq

mutual

/-- Embedding of the signature-inference branch of `derive::arg`
(derive.rs, lines 30-75): given the `as_struct` attribute flag and the
shape of the declared type, produce the wire category and the canonical
signature string the generated `Arg` implementation exposes.  For the
tuple-struct arm the generated code concatenates each field type's own
`signature()`, modelled by classifying each field shape. -/
def Derive.arg (asStruct : Bool) : Shape → Except ClassifyError (ArgType × List Char)
  | .scalar t => .ok (t.arg_type, [t.symbol])
  | .structUnnamed tys =>
    match Derive.argFields tys with
    | .error e => .error e
    | .ok sig => .ok (.Struct, '(' :: sig ++ [')'])
  | .structNamed tys =>
    if asStruct then
      match Derive.argFields tys with
      | .error e => .error e
      | .ok sig => .ok (.Struct, '(' :: sig ++ [')'])
    else .ok (.Array, ['a', '{', 's', 'v', '}'])
  | .structUnit =>
    if asStruct then .ok (.Struct, ['(', ')'])
    else .error .unitStruct
  | .enum vs =>
    if vs.isEmpty then .error .noVariants
    else if vs.all (fun v => !v.hasFields) then .ok (.String, ['s'])
    else
      match vs.find? (fun v => v.hasFields) with
      | some v => .error (.enumFields v.name)
      | none => .error .panicked
  | .union => .error .unionType

/-- Signatures of the field types of a tuple struct, concatenated in
declaration order (derive.rs, lines 35-43): the generated code appends
`<F as Arg>::signature()` for each field `F`. -/
def Derive.argFields : List Shape → Except ClassifyError (List Char)
  | [] => .ok []
  | t :: ts =>
    match Derive.arg false t with
    | .error e => .error e
    | .ok (_, sig) =>
      match Derive.argFields ts with
      | .error e => .error e
      | .ok rest => .ok (sig ++ rest)

end

/-! Helper lemmas. -/

/-- Every character occupies at least one UTF-8 byte. -/
theorem one_le_charUtf8Size (c : Char) : 1 ≤ charUtf8Size c := by
  unfold charUtf8Size
  split
  · omega
  · split
    · omega
    · split <;> omega

/-- The character count of a text never exceeds its UTF-8 byte length. -/
theorem length_le_utf8Len (s : List Char) : s.length ≤ utf8Len s := by
  induction s with
  | nil => simp [utf8Len]
  | cons c s ih =>
    have := one_le_charUtf8Size c
    simp only [List.length_cons, utf8Len]
    omega

/-- An input within the 255-byte limit never fails with the length error:
the only `tooLong` site is the guarded length check. -/
theorem parse_ne_tooLong (s : List Char) (h : utf8Len s ≤ 255) :
    Signature.parse s ≠ .error .tooLong := by
  unfold Signature.parse
  rw [if_pos h]
  cases hq : Signature.parseTypes (2 * s.length + 2) (charIndicesFrom 0 s) <;> simp


/-- Unfolding: parsing empty input yields no node (the source's `Ok(None)`). -/
theorem DbusType.parse_nil (fuel : Nat) :
    DbusType.parse fuel ([] : List (Nat × Char)) = .ok (none, []) := by
  cases fuel <;> rfl

/-- Unfolding: with no fuel left on non-empty input the artificial fuel error results. -/
theorem DbusType.parse_zero_cons (i : Nat) (c : Char) (s : List (Nat × Char)) :
    DbusType.parse 0 ((i, c) :: s) = .error .outOfFuel := rfl

theorem DbusType.parseMembers_zero (s : List (Nat × Char)) :
    DbusType.parseMembers 0 s = .error .outOfFuel := rfl

theorem Signature.parseTypes_zero_cons (i : Nat) (c : Char) (s : List (Nat × Char)) :
    Signature.parseTypes 0 ((i, c) :: s) = .error .outOfFuel := rfl

/-- Unfolding lemma: one step of `DbusType.parse` on non-empty input. -/
theorem DbusType.parse_succ (fuel i : Nat) (c : Char) (s : List (Nat × Char)) :
    DbusType.parse (fuel + 1) ((i, c) :: s) =
      (if c = 'y' then .ok (some (.Simple .Byte), s)
      else if c = 'b' then .ok (some (.Simple .Bool), s)
      else if c = 'n' then .ok (some (.Simple .Int16), s)
      else if c = 'q' then .ok (some (.Simple .UInt16), s)
      else if c = 'i' then .ok (some (.Simple .Int32), s)
      else if c = 'u' then .ok (some (.Simple .UInt32), s)
      else if c = 'd' then .ok (some (.Simple .Double), s)
      else if c = 'h' then .ok (some (.Simple .UnixFd), s)
      else if c = 's' then .ok (some (.Simple .String), s)
      else if c = 'o' then .ok (some (.Simple .ObjectPath), s)
      else if c = 'g' then .ok (some (.Simple .Signature), s)
      else if c = '(' then
        match DbusType.parseMembers fuel s with
        | .error e => .error e
        | .ok (ts, s1) =>
          match s1 with
          | (_, cc) :: rest =>
            if cc = ')' then .ok (some (.Struct ts), rest) else .error (.parenNotClosed i)
          | [] => .error (.parenNotClosed i)
      else if c = 'a' then
        match s with
        | (j, b) :: s1 =>
          if b = '{' then
            match s1 with
            | [] => .error (.expectedKeyType j)
            | (ki, kc) :: s2 =>
              match SimpleType.from_char kc ki with
              | .error e => .error e
              | .ok key =>
                match DbusType.parse fuel s2 with
                | .error e => .error e
                | .ok (none, _) => .error (.expectedValueType j)
                | .ok (some v, s3) => .ok (some (.Dict key v), s3)
          else
            match DbusType.parse fuel ((j, b) :: s1) with
            | .error e => .error e
            | .ok (none, _) => .error (.missingArrayType (i + 1))
            | .ok (some t, s2) => .ok (some (.Array t), s2)
        | [] => .error (.missingArrayType (i + 1))
      else if c = 'v' then .ok (some .Variant, s)
      else .error (.expectedDbusType c i)) := rfl

/-- Unfolding lemma: one step of the top-level parse loop on non-empty input. -/
theorem Signature.parseTypes_succ (fuel i : Nat) (c : Char) (s : List (Nat × Char)) :
    Signature.parseTypes (fuel + 1) ((i, c) :: s) =
      (if c = '\x00' then .ok []
      else
        match DbusType.parse (fuel + 1) ((i, c) :: s) with
        | .error e => .error e
        | .ok (none, _) => .ok []
        | .ok (some t, s1) =>
          match Signature.parseTypes fuel s1 with
          | .error e => .error e
          | .ok ts => .ok (t :: ts)) := rfl

/-- Unfolding lemma: the struct arm of `DbusType.parse`. -/
theorem DbusType.parse_paren (fuel i : Nat) (s : List (Nat × Char)) :
    DbusType.parse (fuel + 1) ((i, '(') :: s) =
      (match DbusType.parseMembers fuel s with
      | .error e => .error e
      | .ok (ts, s1) =>
        match s1 with
        | (_, cc) :: rest =>
          if cc = ')' then .ok (some (.Struct ts), rest) else .error (.parenNotClosed i)
        | [] => .error (.parenNotClosed i)) := rfl

/-- Unfolding lemma: an `a` at the end of the input is a missing array type. -/
theorem DbusType.parse_a_nil (fuel i : Nat) :
    DbusType.parse (fuel + 1) [(i, 'a')] = .error (.missingArrayType (i + 1)) := rfl

/-- Unfolding lemma: the `a` arm of `DbusType.parse`, dict or plain array. -/
theorem DbusType.parse_a_cons (fuel i j : Nat) (b : Char) (s1 : List (Nat × Char)) :
    DbusType.parse (fuel + 1) ((i, 'a') :: (j, b) :: s1) =
      (if b = '{' then
        match s1 with
        | [] => .error (.expectedKeyType j)
        | (ki, kc) :: s2 =>
          match SimpleType.from_char kc ki with
          | .error e => .error e
          | .ok key =>
            match DbusType.parse fuel s2 with
            | .error e => .error e
            | .ok (none, _) => .error (.expectedValueType j)
            | .ok (some v, s3) => .ok (some (.Dict key v), s3)
      else
        match DbusType.parse fuel ((j, b) :: s1) with
        | .error e => .error e
        | .ok (none, _) => .error (.missingArrayType (i + 1))
        | .ok (some t, s2) => .ok (some (.Array t), s2)) := rfl


/-- Unfolding lemma: one step of the struct-member loop on non-empty input. -/
theorem DbusType.parseMembers_cons (fuel k : Nat) (kc : Char) (tail : List (Nat × Char)) :
    DbusType.parseMembers (fuel + 1) ((k, kc) :: tail) =
      (if kc = ')' then .ok ([], (k, kc) :: tail)
      else
        match DbusType.parse fuel ((k, kc) :: tail) with
        | .error e => .error e
        | .ok (none, s1) => .ok ([], s1)
        | .ok (some t, s1) =>
          match DbusType.parseMembers fuel s1 with
          | .error e => .error e
          | .ok (ts, s2) => .ok (t :: ts, s2)) := rfl

set_option maxHeartbeats 2000000 in
/-- A character accepted as a dict key is never the closing brace. -/
theorem SimpleType.from_char_ne_brace {c : Char} {i : Nat} {t : SimpleType}
    (h : SimpleType.from_char c i = .ok t) : c ≠ '}' := by
  unfold SimpleType.from_char at h
  repeat' split at h
  all_goals try cases h
  all_goals subst_vars
  all_goals decide

/-- Prepending one consumed brace-free character to a consumed prefix. -/
theorem cons_consumed {i : Nat} {c : Char} {tl s' : List (Nat × Char)}
    (hc1 : c ≠ '}')
    {pre1 : List (Nat × Char)} (hp : tl = pre1 ++ s')
    (hclean : ∀ p ∈ pre1, Prod.snd p ≠ '}') :
    ∃ pre, ((i, c) :: tl : List (Nat × Char)) = pre ++ s'
      ∧ ∀ p ∈ pre, Prod.snd p ≠ '}' := by
  refine ⟨(i, c) :: pre1, by simp [hp], ?_⟩
  intro p hp2
  rcases List.mem_cons.mp hp2 with h | h
  · subst h; exact hc1
  · exact hclean p h

/-- Consumption invariant of the type grammar: a successful `DbusType.parse`
(or member loop) consumes a prefix that contains no closing brace — no rule
accepts a `}` (a dict-key `}` is consumed only to be rejected at once) — and
`parse` yields `none` only on empty input. -/
theorem parse_consumed : ∀ fuel : Nat,
    (∀ (s s' : List (Nat × Char)) (r : Option DbusType),
      DbusType.parse fuel s = .ok (r, s') →
      (∃ pre, s = pre ++ s' ∧ ∀ p ∈ pre, Prod.snd p ≠ '}') ∧ (r = none → s = []))
    ∧ (∀ (s s' : List (Nat × Char)) (ts : List DbusType),
      DbusType.parseMembers fuel s = .ok (ts, s') →
      ∃ pre, s = pre ++ s' ∧ ∀ p ∈ pre, Prod.snd p ≠ '}') := by
  intro fuel
  induction fuel with
  | zero =>
    constructor
    · intro s s' r h
      cases s with
      | nil =>
        rw [DbusType.parse_nil] at h
        simp only [Except.ok.injEq, Prod.mk.injEq] at h
        exact ⟨⟨[], by simp [← h.2], by simp⟩, fun _ => rfl⟩
      | cons a tl =>
        obtain ⟨i, c⟩ := a
        rw [DbusType.parse_zero_cons] at h
        cases h
    · intro s s' ts h
      rw [DbusType.parseMembers_zero] at h
      cases h
  | succ f ih =>
    obtain ⟨ihp, ihm⟩ := ih
    constructor
    · intro s s' r h
      cases s with
      | nil =>
        rw [DbusType.parse_nil] at h
        simp only [Except.ok.injEq, Prod.mk.injEq] at h
        exact ⟨⟨[], by simp [← h.2], by simp⟩, fun _ => rfl⟩
      | cons a tl =>
        obtain ⟨i, c⟩ := a
        by_cases hc1 : c = 'y'
        · subst hc1
          have h2 : (Except.ok (some (DbusType.Simple .Byte), tl)
              : Except ParseError (Option DbusType × List (Nat × Char))) = .ok (r, s') := h
          simp only [Except.ok.injEq, Prod.mk.injEq] at h2
          exact ⟨cons_consumed (by decide) (show tl = [] ++ s' by simp [h2.2]) (by simp),
            fun hn => by rw [← h2.1] at hn; cases hn⟩
        by_cases hc2 : c = 'b'
        · subst hc2
          have h2 : (Except.ok (some (DbusType.Simple .Bool), tl)
              : Except ParseError (Option DbusType × List (Nat × Char))) = .ok (r, s') := h
          simp only [Except.ok.injEq, Prod.mk.injEq] at h2
          exact ⟨cons_consumed (by decide) (show tl = [] ++ s' by simp [h2.2]) (by simp),
            fun hn => by rw [← h2.1] at hn; cases hn⟩
        by_cases hc3 : c = 'n'
        · subst hc3
          have h2 : (Except.ok (some (DbusType.Simple .Int16), tl)
              : Except ParseError (Option DbusType × List (Nat × Char))) = .ok (r, s') := h
          simp only [Except.ok.injEq, Prod.mk.injEq] at h2
          exact ⟨cons_consumed (by decide) (show tl = [] ++ s' by simp [h2.2]) (by simp),
            fun hn => by rw [← h2.1] at hn; cases hn⟩
        by_cases hc4 : c = 'q'
        · subst hc4
          have h2 : (Except.ok (some (DbusType.Simple .UInt16), tl)
              : Except ParseError (Option DbusType × List (Nat × Char))) = .ok (r, s') := h
          simp only [Except.ok.injEq, Prod.mk.injEq] at h2
          exact ⟨cons_consumed (by decide) (show tl = [] ++ s' by simp [h2.2]) (by simp),
            fun hn => by rw [← h2.1] at hn; cases hn⟩
        by_cases hc5 : c = 'i'
        · subst hc5
          have h2 : (Except.ok (some (DbusType.Simple .Int32), tl)
              : Except ParseError (Option DbusType × List (Nat × Char))) = .ok (r, s') := h
          simp only [Except.ok.injEq, Prod.mk.injEq] at h2
          exact ⟨cons_consumed (by decide) (show tl = [] ++ s' by simp [h2.2]) (by simp),
            fun hn => by rw [← h2.1] at hn; cases hn⟩
        by_cases hc6 : c = 'u'
        · subst hc6
          have h2 : (Except.ok (some (DbusType.Simple .UInt32), tl)
              : Except ParseError (Option DbusType × List (Nat × Char))) = .ok (r, s') := h
          simp only [Except.ok.injEq, Prod.mk.injEq] at h2
          exact ⟨cons_consumed (by decide) (show tl = [] ++ s' by simp [h2.2]) (by simp),
            fun hn => by rw [← h2.1] at hn; cases hn⟩
        by_cases hc7 : c = 'd'
        · subst hc7
          have h2 : (Except.ok (some (DbusType.Simple .Double), tl)
              : Except ParseError (Option DbusType × List (Nat × Char))) = .ok (r, s') := h
          simp only [Except.ok.injEq, Prod.mk.injEq] at h2
          exact ⟨cons_consumed (by decide) (show tl = [] ++ s' by simp [h2.2]) (by simp),
            fun hn => by rw [← h2.1] at hn; cases hn⟩
        by_cases hc8 : c = 'h'
        · subst hc8
          have h2 : (Except.ok (some (DbusType.Simple .UnixFd), tl)
              : Except ParseError (Option DbusType × List (Nat × Char))) = .ok (r, s') := h
          simp only [Except.ok.injEq, Prod.mk.injEq] at h2
          exact ⟨cons_consumed (by decide) (show tl = [] ++ s' by simp [h2.2]) (by simp),
            fun hn => by rw [← h2.1] at hn; cases hn⟩
        by_cases hc9 : c = 's'
        · subst hc9
          have h2 : (Except.ok (some (DbusType.Simple .String), tl)
              : Except ParseError (Option DbusType × List (Nat × Char))) = .ok (r, s') := h
          simp only [Except.ok.injEq, Prod.mk.injEq] at h2
          exact ⟨cons_consumed (by decide) (show tl = [] ++ s' by simp [h2.2]) (by simp),
            fun hn => by rw [← h2.1] at hn; cases hn⟩
        by_cases hc10 : c = 'o'
        · subst hc10
          have h2 : (Except.ok (some (DbusType.Simple .ObjectPath), tl)
              : Except ParseError (Option DbusType × List (Nat × Char))) = .ok (r, s') := h
          simp only [Except.ok.injEq, Prod.mk.injEq] at h2
          exact ⟨cons_consumed (by decide) (show tl = [] ++ s' by simp [h2.2]) (by simp),
            fun hn => by rw [← h2.1] at hn; cases hn⟩
        by_cases hc11 : c = 'g'
        · subst hc11
          have h2 : (Except.ok (some (DbusType.Simple .Signature), tl)
              : Except ParseError (Option DbusType × List (Nat × Char))) = .ok (r, s') := h
          simp only [Except.ok.injEq, Prod.mk.injEq] at h2
          exact ⟨cons_consumed (by decide) (show tl = [] ++ s' by simp [h2.2]) (by simp),
            fun hn => by rw [← h2.1] at hn; cases hn⟩
        by_cases hc12 : c = '('
        · subst hc12
          rw [DbusType.parse_paren] at h
          rcases hm : DbusType.parseMembers f tl with e | ⟨ts0, s1⟩
          · rw [hm] at h; cases h
          · rw [hm] at h
            have h2 : (match s1 with
                | (_, cc) :: rest =>
                  if cc = ')' then
                    (Except.ok (some (DbusType.Struct ts0), rest)
                      : Except ParseError (Option DbusType × List (Nat × Char)))
                  else .error (.parenNotClosed i)
                | [] => .error (.parenNotClosed i)) = .ok (r, s') := h
            rcases s1 with _ | ⟨⟨k, kc⟩, rest⟩
            · cases h2
            · by_cases hk : kc = ')'
              · subst hk
                have h3 : (Except.ok (some (DbusType.Struct ts0), rest)
                    : Except ParseError (Option DbusType × List (Nat × Char))) = .ok (r, s') := h2
                simp only [Except.ok.injEq, Prod.mk.injEq] at h3
                obtain ⟨pre1, htl, hclean1⟩ := ihm tl ((k, ')') :: rest) ts0 hm
                refine ⟨⟨(i, '(') :: (pre1 ++ [(k, ')')]), ?_, ?_⟩,
                  fun hn => by rw [← h3.1] at hn; cases hn⟩
                · rw [htl, ← h3.2]; simp
                · intro p hp
                  rcases List.mem_cons.mp hp with rfl | hp2
                  · exact (by decide : ('(' : Char) ≠ '}')
                  · rcases List.mem_append.mp hp2 with hp3 | hp3
                    · exact hclean1 p hp3
                    · simp only [List.mem_singleton] at hp3
                      subst hp3
                      exact (by decide : (')' : Char) ≠ '}')
              · have h3 : (if kc = ')' then
                    (Except.ok (some (DbusType.Struct ts0), rest)
                      : Except ParseError (Option DbusType × List (Nat × Char)))
                  else .error (.parenNotClosed i)) = .ok (r, s') := h2
                rw [if_neg hk] at h3
                cases h3
        by_cases hc13 : c = 'a'
        · subst hc13
          rcases tl with _ | ⟨⟨j, b⟩, s1⟩
          · rw [DbusType.parse_a_nil] at h; cases h
          · by_cases hb : b = '{'
            · subst hb
              have h2 : (match s1 with
                  | [] => (Except.error (ParseError.expectedKeyType j)
                      : Except ParseError (Option DbusType × List (Nat × Char)))
                  | (ki, kc) :: s2 =>
                    match SimpleType.from_char kc ki with
                    | .error e => .error e
                    | .ok key =>
                      match DbusType.parse f s2 with
                      | .error e => .error e
                      | .ok (none, _) => .error (.expectedValueType j)
                      | .ok (some v, s3) => .ok (some (.Dict key v), s3)) = .ok (r, s') := h
              rcases s1 with _ | ⟨⟨ki, kc⟩, s2⟩
              · cases h2
              · have h3 : (match SimpleType.from_char kc ki with
                    | .error e => (.error e
                        : Except ParseError (Option DbusType × List (Nat × Char)))
                    | .ok key =>
                      match DbusType.parse f s2 with
                      | .error e => .error e
                      | .ok (none, _) => .error (.expectedValueType j)
                      | .ok (some v, s3) => .ok (some (.Dict key v), s3)) = .ok (r, s') := h2
                rcases hfc : SimpleType.from_char kc ki with e | key
                · rw [hfc] at h3; cases h3
                · rw [hfc] at h3
                  have h4 : (match DbusType.parse f s2 with
                      | .error e => (.error e
                          : Except ParseError (Option DbusType × List (Nat × Char)))
                      | .ok (none, _) => .error (.expectedValueType j)
                      | .ok (some v, s3) => .ok (some (.Dict key v), s3)) = .ok (r, s') := h3
                  rcases hpv : DbusType.parse f s2 with e | ⟨ov, s3⟩
                  · rw [hpv] at h4; cases h4
                  · rcases ov with _ | v
                    · rw [hpv] at h4; cases h4
                    · rw [hpv] at h4
                      have h5 : (Except.ok (some (DbusType.Dict key v), s3)
                          : Except ParseError (Option DbusType × List (Nat × Char)))
                          = .ok (r, s') := h4
                      simp only [Except.ok.injEq, Prod.mk.injEq] at h5
                      obtain ⟨⟨pre2, hs2, hclean2⟩, _⟩ := ihp s2 s3 (some v) hpv
                      refine ⟨⟨(i, 'a') :: (j, '{') :: (ki, kc) :: pre2, ?_, ?_⟩,
                        fun hn => by rw [← h5.1] at hn; cases hn⟩
                      · rw [hs2, ← h5.2]; simp
                      · intro p hp
                        rcases List.mem_cons.mp hp with rfl | hp2
                        · exact (by decide : ('a' : Char) ≠ '}')
                        rcases List.mem_cons.mp hp2 with rfl | hp3
                        · exact (by decide : ('\x7b' : Char) ≠ '}')
                        rcases List.mem_cons.mp hp3 with rfl | hp4
                        · exact SimpleType.from_char_ne_brace hfc
                        · exact hclean2 p hp4
            · rw [DbusType.parse_a_cons, if_neg hb] at h
              rcases hpv : DbusType.parse f ((j, b) :: s1) with e | ⟨ov, s2⟩
              · rw [hpv] at h; cases h
              · rcases ov with _ | t
                · rw [hpv] at h; cases h
                · rw [hpv] at h
                  have h3 : (Except.ok (some (DbusType.Array t), s2)
                      : Except ParseError (Option DbusType × List (Nat × Char)))
                      = .ok (r, s') := h
                  simp only [Except.ok.injEq, Prod.mk.injEq] at h3
                  obtain ⟨⟨pre1, hs1, hclean1⟩, _⟩ := ihp ((j, b) :: s1) s2 (some t) hpv
                  exact ⟨cons_consumed (by decide) (show (j, b) :: s1 = pre1 ++ s' by rw [hs1, h3.2]) hclean1,
                    fun hn => by rw [← h3.1] at hn; cases hn⟩
        by_cases hc14 : c = 'v'
        · subst hc14
          have h2 : (Except.ok (some DbusType.Variant, tl)
              : Except ParseError (Option DbusType × List (Nat × Char))) = .ok (r, s') := h
          simp only [Except.ok.injEq, Prod.mk.injEq] at h2
          exact ⟨cons_consumed (by decide) (show tl = [] ++ s' by simp [h2.2]) (by simp),
            fun hn => by rw [← h2.1] at hn; cases hn⟩
        · rw [DbusType.parse_succ, if_neg hc1, if_neg hc2, if_neg hc3, if_neg hc4,
            if_neg hc5, if_neg hc6, if_neg hc7, if_neg hc8, if_neg hc9, if_neg hc10,
            if_neg hc11, if_neg hc12, if_neg hc13, if_neg hc14] at h
          cases h
    · intro s s' ts h
      rcases s with _ | ⟨⟨k, kc⟩, tail⟩
      · have h2 : (Except.ok (([] : List DbusType), ([] : List (Nat × Char)))
            : Except ParseError (List DbusType × List (Nat × Char))) = .ok (ts, s') := h
        simp only [Except.ok.injEq, Prod.mk.injEq] at h2
        exact ⟨[], by simp [← h2.2], by simp⟩
      · by_cases hk : kc = ')'
        · subst hk
          have h2 : (Except.ok (([] : List DbusType), (k, ')') :: tail)
              : Except ParseError (List DbusType × List (Nat × Char))) = .ok (ts, s') := h
          simp only [Except.ok.injEq, Prod.mk.injEq] at h2
          exact ⟨[], by simp [← h2.2], by simp⟩
        · rw [DbusType.parseMembers_cons, if_neg hk] at h
          rcases hpv : DbusType.parse f ((k, kc) :: tail) with e | ⟨ov, s1⟩
          · rw [hpv] at h; cases h
          · rcases ov with _ | t
            · obtain ⟨_, hnil⟩ := ihp ((k, kc) :: tail) s1 none hpv
              cases hnil rfl
            · rw [hpv] at h
              have h2 : (match DbusType.parseMembers f s1 with
                  | .error e => (.error e
                      : Except ParseError (List DbusType × List (Nat × Char)))
                  | .ok (ts2, s2) => .ok (t :: ts2, s2)) = .ok (ts, s') := h
              rcases hm2 : DbusType.parseMembers f s1 with e | ⟨ts2, s2⟩
              · rw [hm2] at h2; cases h2
              · rw [hm2] at h2
                have h3 : (Except.ok (t :: ts2, s2)
                    : Except ParseError (List DbusType × List (Nat × Char)))
                    = .ok (ts, s') := h2
                simp only [Except.ok.injEq, Prod.mk.injEq] at h3
                obtain ⟨⟨pre1, hs1, hclean1⟩, _⟩ := ihp ((k, kc) :: tail) s1 (some t) hpv
                obtain ⟨pre2, hs2, hclean2⟩ := ihm s1 s2 ts2 hm2
                refine ⟨pre1 ++ pre2, ?_, ?_⟩
                · rw [hs1, hs2, ← h3.2]; simp
                · intro p hp
                  rcases List.mem_append.mp hp with h4 | h4
                  · exact hclean1 p h4
                  · exact hclean2 p h4

/-- A successful top-level parse sees no closing brace: either the whole
input is brace-free, or parsing stopped at a terminator and everything
before that terminator is brace-free. -/
theorem parseTypes_clean : ∀ (fuel : Nat) (s : List (Nat × Char)) (ts : List DbusType),
    Signature.parseTypes fuel s = .ok ts →
    (∀ p ∈ s, Prod.snd p ≠ '}')
    ∨ ∃ pre k rest, s = pre ++ (k, '\x00') :: rest ∧ ∀ p ∈ pre, Prod.snd p ≠ '}' := by
  intro fuel
  induction fuel with
  | zero =>
    intro s ts h
    rcases s with _ | ⟨⟨i, c⟩, tl⟩
    · left; simp
    · rw [Signature.parseTypes_zero_cons] at h; cases h
  | succ f ih =>
    intro s ts h
    rcases s with _ | ⟨⟨i, c⟩, tl⟩
    · left; simp
    · by_cases hc : c = '\x00'
      · subst hc
        right
        exact ⟨[], i, tl, by simp, by simp⟩
      · rw [Signature.parseTypes_succ, if_neg hc] at h
        rcases hpv : DbusType.parse (f + 1) ((i, c) :: tl) with e | ⟨ov, s1⟩
        · rw [hpv] at h; cases h
        · rcases ov with _ | t
          · obtain ⟨_, hnil⟩ := (parse_consumed (f + 1)).1 ((i, c) :: tl) s1 none hpv
            cases hnil rfl
          · rw [hpv] at h
            have h2 : (match Signature.parseTypes f s1 with
                | .error e => (.error e : Except ParseError (List DbusType))
                | .ok ts1 => .ok (t :: ts1)) = .ok ts := h
            rcases hq2 : Signature.parseTypes f s1 with e | ts1
            · rw [hq2] at h2; cases h2
            · obtain ⟨⟨pre1, hs1, hclean1⟩, _⟩ :=
                (parse_consumed (f + 1)).1 ((i, c) :: tl) s1 (some t) hpv
              rcases ih s1 ts1 hq2 with hL | ⟨pre2, k2, rest2, hsp, hcl2⟩
              · left
                intro p hp
                rw [hs1] at hp
                rcases List.mem_append.mp hp with h3 | h3
                · exact hclean1 p h3
                · exact hL p h3
              · right
                refine ⟨pre1 ++ pre2, k2, rest2, ?_, ?_⟩
                · rw [hs1, hsp]; simp
                · intro p hp
                  rcases List.mem_append.mp hp with h3 | h3
                  · exact hclean1 p h3
                  · exact hcl2 p h3

/-- The characters of the indexed stream are the original text. -/
theorem charIndicesFrom_map_snd : ∀ (n : Nat) (s : List Char),
    (charIndicesFrom n s).map Prod.snd = s := by
  intro n s
  induction s generalizing n with
  | nil => rfl
  | cons c tl ih => simp [charIndicesFrom, ih]

/-- Character-level reading of the invariant: when `Signature.parse`
succeeds, the input is brace-free up to the terminator at which parsing
stopped (or entirely, when it stopped at the end). -/
theorem parse_ok_clean (s : List Char) (ts : List DbusType)
    (h : Signature.parse s = .ok ts) :
    (∀ c ∈ s, c ≠ '}') ∨ ∃ u r, s = u ++ '\x00' :: r ∧ ∀ c ∈ u, c ≠ '}' := by
  unfold Signature.parse at h
  by_cases hl : utf8Len s ≤ 255
  · rw [if_pos hl] at h
    rcases hq : Signature.parseTypes (2 * s.length + 2) (charIndicesFrom 0 s) with e | ts0
    · rw [hq] at h; cases h
    · rcases parseTypes_clean _ _ _ hq with hL | ⟨pre, k, rest, hsp, hclean⟩
      · left
        intro c hc
        rw [← charIndicesFrom_map_snd 0 s] at hc
        obtain ⟨p, hp, hps⟩ := List.mem_map.mp hc
        rw [← hps]
        exact hL p hp
      · right
        refine ⟨pre.map Prod.snd, rest.map Prod.snd, ?_, ?_⟩
        · rw [← charIndicesFrom_map_snd 0 s, hsp]
          simp
        · intro c hc
          obtain ⟨p, hp, hps⟩ := List.mem_map.mp hc
          rw [← hps]
          exact hclean p hp
  · rw [if_neg hl] at h; cases h

/-! Claim theorems. -/

/-- Claim C1 (code bug): for a dict-entry signature written with its closing
brace, e.g. `a{sv}`, the claim says parse succeeds with one
`Dict(String, Variant)` node of category `Array`.  The code instead fails:
the dict rule never consumes the closing brace, the `Dict(String, Variant)`
node is built with the brace left in the stream (second conjunct), and the
top-level loop then rejects the leftover brace with the unknown-character
error at its offset 4 (first conjunct).  The node's category is indeed
`Array` (third conjunct). -/
theorem c1_dict_close_brace_rejected :
    Signature.parse ['a', '{', 's', 'v', '}']
      = .error (.parse (.expectedDbusType '}' 4))
    ∧ DbusType.parse 6 [(0, 'a'), (1, '{'), (2, 's'), (3, 'v'), (4, '}')]
      = .ok (some (.Dict .String .Variant), [(4, '}')])
    ∧ DbusType.arg_type (.Dict .String .Variant) = .Array :=
  ⟨rfl, rfl, rfl⟩

/-- Claim C2 (code bug): the classifier maps a named-fields record to
category `Array` with canonical signature `a{sv}`, but re-parsing that very
string fails (the parser never consumes the closing brace), so the
round-trip property is broken for every named-record shape. -/
theorem c2_roundtrip_fails_on_named_record :
    Derive.arg false (.structNamed [.scalar .Int32])
      = .ok (.Array, ['a', '{', 's', 'v', '}'])
    ∧ Signature.parse ['a', '{', 's', 'v', '}']
      = .error (.parse (.expectedDbusType '}' 4)) :=
  ⟨rfl, rfl⟩

/-- Claim C3 (code bug): the claim says parsing `ab\0cd` fails with an
"expected end of input after terminator" error.  The code builds exactly
that error but discards it (a dropped expression statement), so parsing
`ab\0cd` succeeds and decodes only the prefix `ab`, exactly as the
well-terminated `ab\0` does. -/
theorem c3_terminator_error_discarded :
    Signature.parse ['a', 'b', '\x00', 'c', 'd'] = .ok [.Array (.Simple .Bool)]
    ∧ Signature.parse ['a', 'b', '\x00'] = .ok [.Array (.Simple .Bool)] :=
  ⟨rfl, rfl⟩

/-- Claim C4 (code bug): a non-simple dict key is rejected with the
simple-type error naming the offending character, as the claim says (first
conjunct, input `a{(i)s}`).  The dict-entry rule does accept a struct in
value position — the node `Dict(Int32, Struct([Int32]))` is built (third
conjunct) — but the full parse of `a{i(i)}` still fails, because the
closing brace is never consumed and the top-level loop rejects it at
offset 6 (second conjunct), contradicting the claim that this input
succeeds. -/
theorem c4_dict_key_simple_value_any :
    Signature.parse ['a', '{', '(', 'i', ')', 's', '}']
      = .error (.parse (.expectedSimpleType '(' 2))
    ∧ Signature.parse ['a', '{', 'i', '(', 'i', ')', '}']
      = .error (.parse (.expectedDbusType '}' 6))
    ∧ DbusType.parse 8 [(0, 'a'), (1, '{'), (2, 'i'), (3, '('), (4, 'i'), (5, ')'), (6, '}')]
      = .ok (some (.Dict .Int32 (.Struct [.Simple .Int32])), [(6, '}')]) :=
  ⟨rfl, rfl, rfl⟩

set_option maxRecDepth 100000 in
/-- Claim C5, counterexample: 128 copies of the two-byte character `Ω` form
an input of 128 characters — within the claimed 255-character allowance —
that nevertheless fails the length check, because the check is on the
UTF-8 byte length (256 here). -/
theorem c5_char_count_cex :
    (List.replicate 128 'Ω').length ≤ 255
    ∧ Signature.parse (List.replicate 128 'Ω') = .error .tooLong :=
  ⟨by simp, rfl⟩

/-- Claim C5, amended: every input longer than 255 characters fails
immediately with the length error regardless of content; and exactly the
inputs whose UTF-8 byte length is at most 255 pass the check (so a
character count of at most 255 alone does not guarantee passing). -/
theorem c5_length_limit_amended :
    (∀ s : List Char, 255 < s.length → Signature.parse s = .error .tooLong)
    ∧ (∀ s : List Char, utf8Len s ≤ 255 → Signature.parse s ≠ .error .tooLong) := by
  constructor
  · intro s h
    have hb : ¬ utf8Len s ≤ 255 := by
      have := length_le_utf8Len s
      omega
    unfold Signature.parse
    rw [if_neg hb]
  · exact parse_ne_tooLong

set_option maxRecDepth 100000 in
/-- Claim C5, witness. -/
theorem c5_length_limit_amended_witness :
    Signature.parse (List.replicate 256 'i') = .error .tooLong
    ∧ Signature.parse ['i'] ≠ .error .tooLong :=
  ⟨c5_length_limit_amended.1 _ (by simp), c5_length_limit_amended.2 _ (by decide)⟩

/-- Claim C6: whenever the struct-member loop opened by a `(` at offset `i`
exhausts the input without reaching a `)`, parsing fails with the
unclosed-paren error carrying that opening offset; concretely, the full
parse of `(ii` fails with the unclosed-paren error at offset 0. -/
theorem c6_unclosed_paren :
    (∀ (f i : Nat) (s : List (Nat × Char)) (ts : List DbusType),
        DbusType.parseMembers f s = .ok (ts, []) →
        DbusType.parse (f + 1) ((i, '(') :: s) = .error (.parenNotClosed i))
    ∧ Signature.parse ['(', 'i', 'i'] = .error (.parse (.parenNotClosed 0)) := by
  refine ⟨?_, rfl⟩
  intro f i s ts h
  have hu : DbusType.parse (f + 1) ((i, '(') :: s)
      = (match DbusType.parseMembers f s with
        | .error e => .error e
        | .ok (ts, s1) =>
          match s1 with
          | (_, cc) :: rest =>
            if cc = ')' then .ok (some (.Struct ts), rest) else .error (.parenNotClosed i)
          | [] => .error (.parenNotClosed i)) := rfl
  rw [hu, h]

/-- Claim C6, witness. -/
theorem c6_unclosed_paren_witness :
    DbusType.parse 4 [(0, '('), (1, 'i'), (2, 'i')] = .error (.parenNotClosed 0) :=
  c6_unclosed_paren.1 3 0 [(1, 'i'), (2, 'i')] [.Simple .Int32, .Simple .Int32] rfl

/-- Claim C7: a record with named fields (and no treat-as-tuple marking)
always classifies to wire category `Array` with the fixed canonical
signature `a{sv}`, whatever its fields are. -/
theorem c7_named_record_is_dict_sv :
    ∀ tys : List Shape,
      Derive.arg false (.structNamed tys) = .ok (.Array, ['a', '{', 's', 'v', '}']) :=
  fun _ => rfl

/-- Claim C8: classifying an enum with no variants is the "no variants"
error; an enum with at least one variant, all of them field-free,
classifies to category `String` with signature `s`; and when some variant
carries fields, classification fails with the error naming the first such
variant (the one `find?` locates). -/
theorem c8_enum_classification :
    (∀ b : Bool, Derive.arg b (.enum []) = .error .noVariants)
    ∧ (∀ (b : Bool) (vs : List EnumVariant), vs ≠ [] →
        vs.all (fun v => !v.hasFields) = true →
        Derive.arg b (.enum vs) = .ok (.String, ['s']))
    ∧ (∀ (b : Bool) (vs : List EnumVariant) (v : EnumVariant),
        vs.find? (fun v => v.hasFields) = some v →
        Derive.arg b (.enum vs) = .error (.enumFields v.name)) := by
  refine ⟨fun _ => rfl, ?_, ?_⟩
  · intro b vs hne hall
    cases vs with
    | nil => exact absurd rfl hne
    | cons a l => simp [Derive.arg, hall]
  · intro b vs v hfind
    cases vs with
    | nil => simp at hfind
    | cons a l =>
      have hmem := List.mem_of_find?_eq_some hfind
      have hv : v.hasFields = true := List.find?_some hfind
      have hallf : (a :: l).all (fun w => !w.hasFields) = false := by
        cases hb : (a :: l).all (fun w => !w.hasFields)
        · rfl
        · exfalso
          have h2 := List.all_eq_true.mp hb v hmem
          rw [hv] at h2
          simp at h2
      simp [Derive.arg, hallf, hfind]

/-- Claim C8, witness. -/
theorem c8_enum_classification_witness :
    Derive.arg false (.enum []) = .error .noVariants
    ∧ Derive.arg false (.enum [⟨['A'], false⟩]) = .ok (.String, ['s'])
    ∧ Derive.arg false (.enum [⟨['A'], false⟩, ⟨['B'], true⟩])
      = .error (.enumFields ['B']) :=
  ⟨c8_enum_classification.1 false,
   c8_enum_classification.2.1 false _ (by decide) rfl,
   c8_enum_classification.2.2 false _ ⟨['B'], true⟩ rfl⟩

/-- Claim C9, counterexample: the input consisting of a terminator followed
by a closing brace passes the length check, contains a brace, and parses
successfully to the empty sequence — the loop stops at the terminator and
the error that should reject trailing input is built but discarded (the
same dropped statement as in C3), so the brace is never examined. -/
theorem c9_brace_after_terminator_cex :
    '}' ∈ ['\x00', '}'] ∧ utf8Len ['\x00', '}'] ≤ 255
    ∧ Signature.parse ['\x00', '}'] = .ok [] :=
  ⟨by decide, by decide, rfl⟩

/-- Claim C9, amended: no parse rule accepts a closing brace, so every
length-admissible input containing a `}` that is not preceded by a
terminator fails with a (non-length) parse error; only a `}` hidden behind
a terminator escapes, because parsing stops there. -/
theorem c9_brace_rejected_amended (u w : List Char) (hu : '\x00' ∉ u)
    (hl : utf8Len (u ++ '}' :: w) ≤ 255) :
    ∃ e : ParseError, Signature.parse (u ++ '}' :: w) = .error (.parse e) := by
  rcases hres : Signature.parse (u ++ '}' :: w) with e | ts
  · cases e with
    | tooLong => exact absurd hres (parse_ne_tooLong _ hl)
    | parse e => exact ⟨e, rfl⟩
  · exfalso
    rcases parse_ok_clean _ _ hres with hL | ⟨p0, r0, hsp, hclean⟩
    · exact hL '}' (by simp) rfl
    · rcases List.append_eq_append_iff.mp hsp with ⟨a2, hp0, hb⟩ | ⟨c2, hu2, hd⟩
      · rcases a2 with _ | ⟨x, a3⟩
        · simp only [List.nil_append] at hb
          exact absurd (List.head_eq_of_cons_eq hb) (by decide)
        · have hx : x = '}' := (List.head_eq_of_cons_eq hb).symm
          subst hx
          exact hclean '}' (by rw [hp0]; simp) rfl
      · rcases c2 with _ | ⟨x, c3⟩
        · simp only [List.nil_append] at hd
          exact absurd (List.head_eq_of_cons_eq hd) (by decide)
        · have hx : x = '\x00' := (List.head_eq_of_cons_eq hd).symm
          subst hx
          exact hu (by rw [hu2]; simp)

/-- Claim C9, witness. -/
theorem c9_brace_rejected_amended_witness :
    ∃ e : ParseError, Signature.parse (['i'] ++ '}' :: []) = .error (.parse e) :=
  c9_brace_rejected_amended ['i'] [] (by decide) (by decide)

/-- Claim C10: the 255 limit is checked on the UTF-8 byte length of the
input, not its character count: any input of at most 255 characters whose
encoding exceeds 255 bytes is rejected with the length error, while any
input of at most 255 bytes passes the check. -/
theorem c10_byte_length_limit :
    (∀ s : List Char, s.length ≤ 255 → 255 < utf8Len s →
        Signature.parse s = .error .tooLong)
    ∧ (∀ s : List Char, utf8Len s ≤ 255 → Signature.parse s ≠ .error .tooLong) := by
  constructor
  · intro s _ h2
    unfold Signature.parse
    rw [if_neg (by omega)]
  · exact parse_ne_tooLong

set_option maxRecDepth 100000 in
/-- Claim C10, witness: 130 copies of the two-byte character `é` are 130
characters but 260 bytes. -/
theorem c10_byte_length_limit_witness :
    Signature.parse (List.replicate 130 'é') = .error .tooLong
    ∧ Signature.parse ['y'] ≠ .error .tooLong :=
  ⟨c10_byte_length_limit.1 _ (by simp) (by decide),
   c10_byte_length_limit.2 _ (by decide)⟩
